import Mathlib

/-
Verification of the keydio keystroke-sound player (src/main.rs) against its
specification. The Rust source is shallowly embedded below: pure functions
become Lean functions, the filesystem and the audio decoder are parameters
(they are external boundaries), and `Vec<u8>` / `Vec<f32>` become lists.
-/

set_option autoImplicit false

namespace Keydio

/-! ## Data model (src/main.rs lines 118-148) -/

/-- Embeds `enum SoundType { Backspace, Enter, Generic, Space }`. -/
inductive SoundType where
  | Backspace
  | Enter
  | Generic
  | Space
  deriving DecidableEq, Repr

/-- Embeds `enum KeyPressType { Press, Release }`. -/
inductive KeyPressType where
  | Press
  | Release
  deriving DecidableEq, Repr

/-- Embeds `enum Theme { CherryMXBrown }`. -/
inductive Theme where
  | CherryMXBrown
  deriving DecidableEq, Repr

/-- Embeds `struct KeyboardButtonSound { sound_type: SoundType, data: Vec<u8> }`.
Bytes are modelled as natural numbers. -/
structure KeyboardButtonSound where
  sound_type : SoundType
  data : List Nat
  deriving DecidableEq, Repr

/-- Embeds `struct AppState { theme, audio_press, audio_release }`. -/
structure AppState where
  theme : Theme
  audio_press : List KeyboardButtonSound
  audio_release : List KeyboardButtonSound
  deriving DecidableEq, Repr

/-- Embeds `AppState::new`. -/
def AppState.new (theme : Theme) : AppState :=
  { theme := theme, audio_press := [], audio_release := [] }

/-! ## Configured file table (src/main.rs lines 20-29) -/

/-- Embeds `const ASSETS: &str = "assets"`. -/
def ASSETS : String := "assets"

/-- Embeds `const CHERRYMXBROWN: &str = "cherrymxbrown"`. -/
def CHERRYMXBROWN : String := "cherrymxbrown"

/-- Embeds `const AUDIOFILE: [(&str, SoundType); 5]`; note that two distinct
files are mapped to the `Generic` category. -/
def AUDIOFILE : List (String × SoundType) :=
  [("BACKSPACE.mp3", SoundType.Backspace),
   ("ENTER.mp3", SoundType.Enter),
   ("GENERIC_R0.mp3", SoundType.Generic),
   ("GENERIC_R1.mp3", SoundType.Generic),
   ("SPACE.mp3", SoundType.Space)]

/-- Embeds `format!("{}/{}/{}/{}", ASSETS, CHERRYMXBROWN, dir, audio.0)` from
`load_audio_on_memory`. -/
def assetPath (dir : String) (name : String) : String :=
  ASSETS ++ "/" ++ CHERRYMXBROWN ++ "/" ++ dir ++ "/" ++ name

/-! ## Filesystem boundary

The filesystem is an external collaborator: it is modelled as a function from
a path to one of three outcomes, matching the ways the Rust code can observe
a file in `load_audio_on_memory`: `File::open` fails (`missing`), the open
succeeds but `read_to_end` fails (`readError`), or the bytes are read
(`content`). -/

/-- Outcome of trying to open and read one file, as observed by
`load_audio_on_memory`. -/
inductive FileOutcome where
  | missing
  | readError
  | content (bytes : List Nat)
  deriving DecidableEq, Repr

/-- Embeds `let dir = match keypress { Press => "press", Release => "release" }`. -/
def dirString : KeyPressType → String
  | .Press => "press"
  | .Release => "release"

/-! ## Sound Bank load (src/main.rs lines 159-196) -/

/-- Embeds `AppState::load_audio_on_memory`: a missing file is silently
skipped (`Ok`, state unchanged); a failed read propagates an error; read
bytes are pushed onto the press or release list according to `dir`. -/
def load_audio_on_memory (fs : String → FileOutcome) (st : AppState)
    (audio : String × SoundType) (keypress : KeyPressType) :
    Except String AppState :=
  let dir := dirString keypress
  match fs (assetPath dir audio.1) with
  | .missing => .ok st
  | .readError => .error "read_to_end failed"
  | .content buffer =>
    let sound : KeyboardButtonSound := { sound_type := audio.2, data := buffer }
    if dir = "press" then
      .ok { st with audio_press := st.audio_press ++ [sound] }
    else
      .ok { st with audio_release := st.audio_release ++ [sound] }

/-- Embeds the loop body of `load_audio_samples`: for each configured entry,
load the release variant then the press variant, propagating errors (`?`). -/
def load_list (fs : String → FileOutcome) :
    List (String × SoundType) → AppState → Except String AppState
  | [], st => .ok st
  | audio :: rest, st =>
    match load_audio_on_memory fs st audio .Release with
    | .error e => .error e
    | .ok st1 =>
      match load_audio_on_memory fs st1 audio .Press with
      | .error e => .error e
      | .ok st2 => load_list fs rest st2

/-- Embeds `AppState::load_audio_samples`. -/
def load_audio_samples (fs : String → FileOutcome) (st : AppState) :
    Except String AppState :=
  match st.theme with
  | .CherryMXBrown => load_list fs AUDIOFILE st

/-! ## Sound Bank lookup (src/main.rs lines 198-207) -/

/-- Embeds `let sounds = match keypress.0 { Press => &self.audio_press,
Release => &self.audio_release }`. -/
def sounds_of (st : AppState) : KeyPressType → List KeyboardButtonSound
  | .Press => st.audio_press
  | .Release => st.audio_release

/-- Embeds `AppState::get_audio_data`: linear search for the first stored
clip whose `sound_type` matches, returning a copy of its bytes. -/
def get_audio_data (st : AppState) (keypress : KeyPressType × SoundType) :
    Option (List Nat) :=
  ((sounds_of st keypress.1).find? (fun item => item.sound_type == keypress.2)).map
    (fun item => item.data)

/-- Proof-side helper: the effect of a successful `load_audio_on_memory` on
the state — push the clip onto the list selected by the key state. -/
def push_sound : KeyPressType → AppState → KeyboardButtonSound → AppState
  | .Press, st, s => { st with audio_press := st.audio_press ++ [s] }
  | .Release, st, s => { st with audio_release := st.audio_release ++ [s] }

/-- Proof-side helper: the clips a load over `entries` stores for key state
`kp`, in configured order — exactly the entries whose file has content. -/
def stored_clips (fs : String → FileOutcome) (kp : KeyPressType)
    (entries : List (String × SoundType)) : List KeyboardButtonSound :=
  entries.filterMap (fun audio =>
    match fs (assetPath (dirString kp) audio.1) with
    | .content b => some { sound_type := audio.2, data := b }
    | _ => none)

/-! ## Playback: cyclic sample source (src/main.rs lines 90-94)

The decoded clip `samples: Vec<f32>` is a list over an arbitrary sample type
`α` (no floating-point arithmetic is performed on samples: they are only
moved and converted), and the f32 literal `0.0` becomes an explicit zero
value `z`. -/

/-- Embeds `samples.into_iter().cycle()`: the i-th call to `next()` yields
element `i mod length`, or `none` when the vector is empty (Rust's `cycle`
on an empty iterator keeps returning `None`). -/
def cyclePull {α : Type} (samples : List α) (i : Nat) : Option α :=
  samples[i % samples.length]?

/-- Embeds the closure `&mut || sample_iter.next().unwrap_or(0.0)`; `z`
embeds the literal `0.0`. -/
def nextSampleClosure {α : Type} (samples : List α) (z : α) (i : Nat) : α :=
  (cyclePull samples i).getD z

/-- Repeatedly pulling fixed-size buffers from one cyclic source: the t-th
buffer of size B holds the pulls at indices t*B, ..., t*B+B-1. -/
def pullBuffer {α : Type} (samples : List α) (z : α) (B t : Nat) : List α :=
  (List.range B).map (fun i => nextSampleClosure samples z (t * B + i))

/-! ## Playback: write_data (src/main.rs lines 106-116) -/

/-- Recursion worker for the frame loop of `write_data`: each step emits one
frame of `min channels n` slots, all holding the sample pulled at index `k`
and converted once; `fuel` bounds the number of frames (any `fuel ≥ n`
behaves identically, see `write_data_go_congr`). -/
def write_data_go {α β : Type} (channels : Nat) (next : Nat → α)
    (conv : α → β) : Nat → Nat → Nat → List (List β)
  | 0, _, _ => []
  | fuel + 1, n, k =>
    if 0 < channels ∧ 0 < n then
      List.replicate (min channels n) (conv (next k)) ::
        write_data_go channels next conv fuel (n - min channels n) (k + 1)
    else
      []

/-- Embeds the frame loop of `write_data`: `output.chunks_mut(channels)`
yields frames of `channels` samples (the last one possibly shorter); one
source sample is pulled per frame (pull index `k`), converted once by
`conv` (embedding `T::from_sample`), and written to every slot of the
frame. `n` is the number of remaining output slots. In Rust,
`chunks_mut(0)` is a panic; the `channels = 0` case never arises and is
mapped to the empty frame list. -/
def write_data_frames {α β : Type} (channels : Nat) (next : Nat → α)
    (conv : α → β) (n k : Nat) : List (List β) :=
  write_data_go channels next conv n n k

/-- Embeds `fn write_data<T>`: the flat output buffer of `n` slots produced
by the frame loop. -/
def write_data {α β : Type} (channels : Nat) (next : Nat → α) (conv : α → β)
    (n : Nat) : List β :=
  (write_data_frames channels next conv n 0).flatten

/-! ## Playback: the stream callback (src/main.rs lines 76-104)

In `AudioHandler::run`, `let rx = self.rx.recv();` runs ONCE, before
`build_output_stream`; the callback closure captures that single `Result`
and re-examines the same value on every invocation. -/

/-- Embeds `std::sync::mpsc::RecvError`. -/
inductive RecvError where
  | disconnected
  deriving DecidableEq, Repr

/-- Embeds the single blocking `self.rx.recv()`: with `sent` the queue of
events sent before the receive completes, it returns the first queued event,
or an error when every sender has been dropped with the queue empty. -/
def recv (sent : List (KeyPressType × SoundType)) :
    Except RecvError (KeyPressType × SoundType) :=
  match sent with
  | [] => .error .disconnected
  | e :: _ => .ok e

/-- Embeds one invocation of the output-stream callback closure in
`AudioHandler::run`: `rx` is the captured receive result, `decode` embeds
the external `audrey` decoder (bytes to samples), `z` the literal `0.0`,
`conv` the `T::from_sample` conversion and `data` the device buffer. The
result pairs the buffer contents after the invocation with the list of log
lines the closure printed (the closure contains no print call, and on
`Err` or a failed lookup it writes nothing). -/
def callback {α β : Type} (channels : Nat) (decode : List Nat → List α)
    (z : α) (conv : α → β) (st : AppState)
    (rx : Except RecvError (KeyPressType × SoundType)) (data : List β) :
    List β × List String :=
  match rx with
  | .error _ => (data, [])
  | .ok received_keypress =>
    match get_audio_data st received_keypress with
    | none => (data, [])
    | some audio =>
      let samples := decode audio
      (write_data channels (nextSampleClosure samples z) conv data.length, [])

/-- Embeds a run of the stream: `recv` is performed once, then every
callback invocation (one per device buffer in `bufs`) re-checks the same
captured result. -/
def stream_callbacks {α β : Type} (channels : Nat)
    (decode : List Nat → List α) (z : α) (conv : α → β)
    (sent : List (KeyPressType × SoundType)) (st : AppState)
    (bufs : List (List β)) : List (List β) :=
  let rx := recv sent
  bufs.map (fun data => (callback channels decode z conv st rx data).1)

/-- A concrete instantiation of the external decoder boundary, used in
concrete evaluations: each byte becomes one integer sample. -/
def decodeNat (bytes : List Nat) : List Int :=
  bytes.map (fun b => (b : Int))

/-! ## Keyboard capture (src/main.rs lines 247-275) -/

/-- Embeds the subset of `device_query::Keycode` the mapping distinguishes;
every other key code is `Key c`. -/
inductive Keycode where
  | Backspace
  | Enter
  | Space
  | Key (code : Nat)
  deriving DecidableEq, Repr

/-- Embeds `fn map_key_to_sound`. -/
def map_key_to_sound : Keycode → SoundType
  | .Backspace => SoundType.Backspace
  | .Enter => SoundType.Enter
  | .Space => SoundType.Space
  | _ => SoundType.Generic

/-- Control state of `handle_keyboard` after the two handlers are
registered: either still inside `loop` or returned to the caller. -/
inductive CapturePhase where
  | looping
  | returned
  deriving DecidableEq, Repr

/-- One iteration of the trailing `loop` in `handle_keyboard`: the body is
empty, so the state is unchanged and the loop is never exited. -/
def handle_keyboard_step : CapturePhase → CapturePhase
  | .looping => .looping
  | .returned => .returned

/-- The control state of `handle_keyboard` after `n` loop iterations,
starting from the point where both key handlers have been registered. -/
def handle_keyboard_trace : Nat → CapturePhase
  | 0 => .looping
  | n + 1 => handle_keyboard_step (handle_keyboard_trace n)

/-! ## Lemmas about the Sound Bank load -/

/-- Case form of `load_audio_on_memory`: missing file skipped, failed read
fatal, content pushed onto the list selected by the key state. -/
lemma load_on_memory_eq (fs : String → FileOutcome) (st : AppState)
    (audio : String × SoundType) (kp : KeyPressType) :
    load_audio_on_memory fs st audio kp =
      match fs (assetPath (dirString kp) audio.1) with
      | .missing => .ok st
      | .readError => .error "read_to_end failed"
      | .content b =>
        .ok (push_sound kp st { sound_type := audio.2, data := b }) := by
  cases kp with
  | Press =>
    cases h : fs (assetPath "press" audio.1) <;>
      simp [load_audio_on_memory, dirString, push_sound, h]
  | Release =>
    cases h : fs (assetPath "release" audio.1) <;>
      simp [load_audio_on_memory, dirString, push_sound, h]

/-- A successful load appends, to each of the two lists, exactly the
configured clips whose file has content, in configured order. -/
lemma load_list_ok_state (fs : String → FileOutcome) :
    ∀ (entries : List (String × SoundType)) (st stf : AppState),
      load_list fs entries st = .ok stf →
      stf.theme = st.theme ∧
      stf.audio_press = st.audio_press ++ stored_clips fs .Press entries ∧
      stf.audio_release = st.audio_release ++ stored_clips fs .Release entries := by
  intro entries
  induction entries with
  | nil =>
    intro st stf h
    simp only [load_list] at h
    cases h
    simp [stored_clips]
  | cons audio rest ih =>
    intro st stf h
    cases hrel : fs (assetPath (dirString KeyPressType.Release) audio.1) <;>
      cases hpr : fs (assetPath (dirString KeyPressType.Press) audio.1) <;>
        simp only [load_list, load_on_memory_eq, hrel, hpr] at h <;>
          try exact absurd h (by simp)
    all_goals
      obtain ⟨hth, hp, hr⟩ := ih _ _ h
    all_goals
      refine ⟨?_, ?_, ?_⟩ <;>
        simp [hth, hp, hr, stored_clips, List.filterMap_cons, hrel, hpr,
          push_sound, List.append_assoc]

/-- A load succeeds exactly when no configured file is readable-but-broken:
missing files never fail the load, a failed read always does. -/
lemma load_list_ok_iff (fs : String → FileOutcome) :
    ∀ (entries : List (String × SoundType)) (st : AppState),
      (∃ stf, load_list fs entries st = .ok stf) ↔
      ∀ a ∈ entries,
        fs (assetPath "release" a.1) ≠ .readError ∧
        fs (assetPath "press" a.1) ≠ .readError := by
  intro entries
  induction entries with
  | nil =>
    intro st
    simp [load_list]
  | cons audio rest ih =>
    intro st
    cases hrel : fs (assetPath "release" audio.1) <;>
      cases hpr : fs (assetPath "press" audio.1) <;>
        simp [load_list, load_on_memory_eq, dirString, hrel, hpr,
          List.forall_mem_cons, ih]

/-- After a successful full load from the fresh state, the list consulted
for either key state is exactly the stored-clip list for that state. -/
lemma loaded_sounds_of (fs : String → FileOutcome) (st : AppState)
    (h : load_audio_samples fs (AppState.new .CherryMXBrown) = .ok st)
    (kp : KeyPressType) :
    sounds_of st kp = stored_clips fs kp AUDIOFILE := by
  have hload := load_list_ok_state fs AUDIOFILE (AppState.new .CherryMXBrown) st
    (by simpa [load_audio_samples, AppState.new] using h)
  cases kp <;>
    simp [sounds_of, hload.2.1, hload.2.2, AppState.new]

/-- The linear search over the stored clips fails exactly when no configured
file of the requested category (for the requested key state) has content. -/
lemma stored_clips_find?_none_iff (fs : String → FileOutcome)
    (kp : KeyPressType) (cat : SoundType)
    (entries : List (String × SoundType)) :
    ((stored_clips fs kp entries).find?
        (fun item => item.sound_type == cat) = none ↔
      ∀ a ∈ entries, a.2 = cat →
        ∀ b, fs (assetPath (dirString kp) a.1) ≠ .content b) := by
  rw [List.find?_eq_none]
  constructor
  · intro h a ha hcat b hcon
    have hmem : ({ sound_type := a.2, data := b } : KeyboardButtonSound) ∈
        stored_clips fs kp entries :=
      List.mem_filterMap.mpr ⟨a, ha, by simp [hcon]⟩
    have hne := h _ hmem
    simp [hcat] at hne
  · intro h clip hclip
    obtain ⟨a, ha, hfa⟩ := List.mem_filterMap.mp hclip
    cases hout : fs (assetPath (dirString kp) a.1) with
    | content b =>
      rw [hout] at hfa
      simp only [Option.some.injEq] at hfa
      intro hp
      have hcat : a.2 = cat := by
        have : clip.sound_type = a.2 := by rw [← hfa]
        rw [← this]
        exact eq_of_beq hp
      exact h a ha hcat b hout
    | missing =>
      rw [hout] at hfa
      simp at hfa
    | readError =>
      rw [hout] at hfa
      simp at hfa

/-- When the linear search returns a clip, that clip's category matches and
its bytes are exactly the contents of a configured file for that category
and key state. -/
lemma stored_clips_find?_some (fs : String → FileOutcome)
    (kp : KeyPressType) (cat : SoundType)
    (entries : List (String × SoundType)) (clip : KeyboardButtonSound) :
    (stored_clips fs kp entries).find?
        (fun item => item.sound_type == cat) = some clip →
    clip.sound_type = cat ∧
    ∃ a ∈ entries, a.2 = cat ∧
      fs (assetPath (dirString kp) a.1) = .content clip.data := by
  intro h
  have hcat : clip.sound_type = cat := by simpa using List.find?_some h
  have hmem : clip ∈ stored_clips fs kp entries := List.mem_of_find?_eq_some h
  obtain ⟨a, ha, hfa⟩ := List.mem_filterMap.mp hmem
  cases hout : fs (assetPath (dirString kp) a.1) with
  | content b =>
    rw [hout] at hfa
    simp only [Option.some.injEq] at hfa
    refine ⟨hcat, a, ha, ?_, ?_⟩
    · rw [← hcat, ← hfa]
    · rw [hout, ← hfa]
  | missing =>
    rw [hout] at hfa
    simp at hfa
  | readError =>
    rw [hout] at hfa
    simp at hfa

/-- A linear search returns the head of the filtered list: only the first
match is ever considered current. -/
lemma find?_eq_filter_head? {γ : Type} (p : γ → Bool) :
    ∀ l : List γ, l.find? p = (l.filter p).head? := by
  intro l
  induction l with
  | nil => rfl
  | cons a t ih =>
    by_cases h : p a
    · rw [List.find?_cons_of_pos t h, List.filter_cons_of_pos h, List.head?_cons]
    · rw [List.find?_cons_of_neg t h, List.filter_cons_of_neg h, ih]

/-! ## Claim theorems (Sound Bank) -/

/-- Claim C2: after a successful load, lookup returns `none` exactly when no
configured file for the requested (state, category) pair had content, and
when it returns bytes they are identical to the contents of a configured
file for that pair. -/
theorem c2_lookup_matches_loaded_files :
    ∀ (fs : String → FileOutcome) (st : AppState),
      load_audio_samples fs (AppState.new .CherryMXBrown) = .ok st →
      ∀ (kp : KeyPressType) (cat : SoundType),
        (get_audio_data st (kp, cat) = none ↔
          ∀ a ∈ AUDIOFILE, a.2 = cat →
            ∀ b, fs (assetPath (dirString kp) a.1) ≠ .content b) ∧
        (∀ b, get_audio_data st (kp, cat) = some b →
          ∃ a ∈ AUDIOFILE, a.2 = cat ∧
            fs (assetPath (dirString kp) a.1) = .content b) := by
  intro fs st h kp cat
  have hsounds := loaded_sounds_of fs st h kp
  constructor
  · rw [get_audio_data, hsounds]
    rw [Option.map_eq_none']
    exact stored_clips_find?_none_iff fs kp cat AUDIOFILE
  · intro b hb
    rw [get_audio_data, hsounds] at hb
    obtain ⟨clip, hclip, hdata⟩ := Option.map_eq_some'.mp hb
    obtain ⟨_, a, ha, hacat, hcon⟩ :=
      stored_clips_find?_some fs kp cat AUDIOFILE clip hclip
    exact ⟨a, ha, hacat, by rw [hcon, hdata]⟩

/-- Witness for C2: with exactly `press/SPACE.mp3` present holding bytes
[7], the load succeeds, lookup of (Press, Space) returns [7], and those
bytes are the contents of a configured file for that pair. -/
theorem c2_witness :
    load_audio_samples
        (fun p => if p = assetPath "press" "SPACE.mp3"
          then FileOutcome.content [7] else FileOutcome.missing)
        (AppState.new .CherryMXBrown) =
      .ok { theme := .CherryMXBrown,
            audio_press := [{ sound_type := .Space, data := [7] }],
            audio_release := [] } ∧
    get_audio_data
        { theme := .CherryMXBrown,
          audio_press := [{ sound_type := .Space, data := [7] }],
          audio_release := [] } (.Press, .Space) = some [7] ∧
    ∃ a ∈ AUDIOFILE, a.2 = SoundType.Space ∧
      (fun p => if p = assetPath "press" "SPACE.mp3"
        then FileOutcome.content [7] else FileOutcome.missing)
        (assetPath (dirString .Press) a.1) = .content [7] :=
  ⟨rfl, rfl,
    (c2_lookup_matches_loaded_files
      (fun p => if p = assetPath "press" "SPACE.mp3"
        then FileOutcome.content [7] else FileOutcome.missing)
      { theme := .CherryMXBrown,
        audio_press := [{ sound_type := .Space, data := [7] }],
        audio_release := [] } rfl .Press .Space).2 [7] rfl⟩

/-- Claim C3: during load, a file that cannot be opened is silently skipped
(the triple is omitted, the state is unchanged and the step returns Ok),
a file that opens but cannot be read makes the step return an error, and
the full load succeeds exactly when no configured file fails to read. -/
theorem c3_missing_skipped_read_error_fatal :
    (∀ (fs : String → FileOutcome) (st : AppState)
        (audio : String × SoundType) (kp : KeyPressType),
      fs (assetPath (dirString kp) audio.1) = .missing →
      load_audio_on_memory fs st audio kp = .ok st) ∧
    (∀ (fs : String → FileOutcome) (st : AppState)
        (audio : String × SoundType) (kp : KeyPressType),
      fs (assetPath (dirString kp) audio.1) = .readError →
      load_audio_on_memory fs st audio kp = .error "read_to_end failed") ∧
    (∀ fs : String → FileOutcome,
      (∃ stf, load_audio_samples fs (AppState.new .CherryMXBrown) = .ok stf) ↔
      ∀ a ∈ AUDIOFILE,
        fs (assetPath "release" a.1) ≠ .readError ∧
        fs (assetPath "press" a.1) ≠ .readError) := by
  refine ⟨?_, ?_, ?_⟩
  · intro fs st audio kp h
    rw [load_on_memory_eq, h]
  · intro fs st audio kp h
    rw [load_on_memory_eq, h]
  · intro fs
    simpa [load_audio_samples, AppState.new] using
      load_list_ok_iff fs AUDIOFILE (AppState.new .CherryMXBrown)

/-- Witness for C3: with every file missing, a single step is a silent
no-op and the whole load still succeeds. -/
theorem c3_witness :
    load_audio_on_memory (fun _ => FileOutcome.missing)
        (AppState.new .CherryMXBrown) ("ENTER.mp3", .Enter) .Press =
      .ok (AppState.new .CherryMXBrown) ∧
    (∃ stf, load_audio_samples (fun _ => FileOutcome.missing)
        (AppState.new .CherryMXBrown) = .ok stf) :=
  ⟨c3_missing_skipped_read_error_fatal.1 (fun _ => FileOutcome.missing)
      (AppState.new .CherryMXBrown) ("ENTER.mp3", .Enter) .Press rfl,
    (c3_missing_skipped_read_error_fatal.2.2 (fun _ => FileOutcome.missing)).mpr
      (by intro a _; exact ⟨by simp, by simp⟩)⟩

/-- Claim C7: after a successful load, lookup considers at most one clip
current per (state, category) pair — it returns exactly the head of the
matching clips (so with both generic files present only the first is ever
returned) — and a pair whose configured files were all missing yields
`none` rather than a failure; the configured table maps two distinct files
to the Generic category. -/
theorem c7_at_most_one_current_clip :
    ∀ (fs : String → FileOutcome) (st : AppState),
      load_audio_samples fs (AppState.new .CherryMXBrown) = .ok st →
      ∀ (kp : KeyPressType) (cat : SoundType),
        get_audio_data st (kp, cat) =
          ((sounds_of st kp).filter
              (fun item => item.sound_type == cat)).head?.map
            (fun item => item.data) ∧
        ((∀ a ∈ AUDIOFILE, a.2 = cat →
            fs (assetPath (dirString kp) a.1) = .missing) →
          get_audio_data st (kp, cat) = none) ∧
        (AUDIOFILE.filter (fun a => a.2 == SoundType.Generic)).length = 2 := by
  intro fs st h kp cat
  have hsounds := loaded_sounds_of fs st h kp
  refine ⟨?_, ?_, by decide⟩
  · rw [get_audio_data, find?_eq_filter_head?]
  · intro hmiss
    rw [get_audio_data, hsounds, Option.map_eq_none']
    rw [stored_clips_find?_none_iff fs kp cat AUDIOFILE]
    intro a ha hcat b hcon
    rw [hmiss a ha hcat] at hcon
    exact FileOutcome.noConfusion hcon

/-- Witness for C7: with both generic press files present ([1] and [2]),
lookup of (Press, Generic) is the head of a two-element filtered list
(here [1], the first file's bytes), and (Press, Enter) — all its files
missing — yields `none`. -/
theorem c7_witness :
    load_audio_samples
        (fun p => if p = assetPath "press" "GENERIC_R0.mp3"
          then FileOutcome.content [1]
          else if p = assetPath "press" "GENERIC_R1.mp3"
            then FileOutcome.content [2] else FileOutcome.missing)
        (AppState.new .CherryMXBrown) =
      .ok { theme := .CherryMXBrown,
            audio_press := [{ sound_type := .Generic, data := [1] },
                            { sound_type := .Generic, data := [2] }],
            audio_release := [] } ∧
    get_audio_data
        { theme := .CherryMXBrown,
          audio_press := [{ sound_type := .Generic, data := [1] },
                          { sound_type := .Generic, data := [2] }],
          audio_release := [] } (.Press, .Generic) = some [1] ∧
    get_audio_data
        { theme := .CherryMXBrown,
          audio_press := [{ sound_type := .Generic, data := [1] },
                          { sound_type := .Generic, data := [2] }],
          audio_release := [] } (.Press, .Enter) = none :=
  ⟨rfl, rfl,
    (c7_at_most_one_current_clip
      (fun p => if p = assetPath "press" "GENERIC_R0.mp3"
        then FileOutcome.content [1]
        else if p = assetPath "press" "GENERIC_R1.mp3"
          then FileOutcome.content [2] else FileOutcome.missing)
      { theme := .CherryMXBrown,
        audio_press := [{ sound_type := .Generic, data := [1] },
                        { sound_type := .Generic, data := [2] }],
        audio_release := [] } rfl .Press .Enter).2.1 (by decide)⟩

/-! ## Lemmas about write_data -/

lemma write_data_go_congr {α β : Type} (channels : Nat) (next : Nat → α)
    (conv : α → β) :
    ∀ fuel1 fuel2 n k : Nat, n ≤ fuel1 → n ≤ fuel2 →
      write_data_go channels next conv fuel1 n k =
        write_data_go channels next conv fuel2 n k := by
  intro fuel1
  induction fuel1 with
  | zero =>
    intro fuel2 n k h1 _
    interval_cases n
    cases fuel2 <;> simp [write_data_go]
  | succ f1 ih =>
    intro fuel2 n k h1 h2
    cases fuel2 with
    | zero =>
      interval_cases n
      simp [write_data_go]
    | succ f2 =>
      rw [write_data_go, write_data_go]
      by_cases hcn : 0 < channels ∧ 0 < n
      · simp only [hcn, if_true]
        have hmin : 0 < min channels n := lt_min hcn.1 hcn.2
        have hlt : n - min channels n < n := Nat.sub_lt hcn.2 hmin
        exact congrArg _ (ih f2 (n - min channels n) (k + 1)
          (by omega) (by omega))
      · simp only [hcn, if_false]

/-- The defining equation of the frame loop: one frame of `min channels n`
copies of the converted pull, then the loop continues on the rest. -/
lemma write_data_frames_eq {α β : Type} (channels : Nat) (next : Nat → α)
    (conv : α → β) (n k : Nat) :
    write_data_frames channels next conv n k =
      if 0 < channels ∧ 0 < n then
        List.replicate (min channels n) (conv (next k)) ::
          write_data_frames channels next conv (n - min channels n) (k + 1)
      else [] := by
  unfold write_data_frames
  cases n with
  | zero => simp [write_data_go]
  | succ m =>
    rw [write_data_go]
    by_cases hc : 0 < channels
    · simp only [hc, Nat.succ_pos, and_true, if_true, true_and]
      refine congrArg _ ?_
      have hmin : 0 < min channels (m + 1) := lt_min hc (Nat.succ_pos m)
      exact write_data_go_congr channels next conv m (m + 1 - min channels (m + 1))
        (m + 1 - min channels (m + 1)) (k + 1) (by omega) le_rfl
    · simp [hc]

lemma write_data_frames_flatten_length {α β : Type} (channels : Nat)
    (next : Nat → α) (conv : α → β) (hc : 0 < channels) :
    ∀ n k : Nat, (write_data_frames channels next conv n k).flatten.length = n := by
  intro n
  induction n using Nat.strong_induction_on with
  | _ n ih =>
    intro k
    rw [write_data_frames_eq]
    by_cases hn : 0 < n
    · have hmin : 0 < min channels n := lt_min hc hn
      have hlt : n - min channels n < n := Nat.sub_lt hn hmin
      have hle : min channels n ≤ n := Nat.min_le_right channels n
      simp only [hc, hn, and_true, true_and, if_true, List.flatten_cons,
        List.length_append, List.length_replicate, ih (n - min channels n) hlt]
      omega
    · have hn0 : n = 0 := by omega
      simp [hn0]

lemma write_data_frames_const {α β : Type} (channels : Nat) (next : Nat → α)
    (conv : α → β) (v : α) (hc : 0 < channels) (hv : ∀ i, next i = v) :
    ∀ n k : Nat,
      (write_data_frames channels next conv n k).flatten =
        List.replicate n (conv v) := by
  intro n
  induction n using Nat.strong_induction_on with
  | _ n ih =>
    intro k
    rw [write_data_frames_eq]
    by_cases hn : 0 < n
    · have hmin : 0 < min channels n := lt_min hc hn
      have hlt : n - min channels n < n := Nat.sub_lt hn hmin
      have hle : min channels n ≤ n := Nat.min_le_right channels n
      simp only [hc, hn, and_true, true_and, if_true, List.flatten_cons,
        hv k, ih (n - min channels n) hlt]
      rw [← List.replicate_add]
      exact congrArg₂ _ (by omega) rfl
    · have hn0 : n = 0 := by omega
      simp [hn0]

/-! ## Claim theorems (playback side) -/

/-- Claim C4: the sample source built from a decoded clip of `K > 0` samples
is cyclic: the j-th pull yields sample `j mod K`, so repeatedly pulling
buffers of size `B < K` reproduces the clip's samples in order without gaps
across consecutive pulls, and the pull just past sample `K` wraps back to
sample 0. -/
theorem c4_cyclic_source_in_order_wraps {α : Type} (samples : List α) (z : α)
    (B : Nat) (hK : 0 < samples.length) (_hB : B < samples.length) :
    (∀ j : Nat, nextSampleClosure samples z j =
      (samples[j % samples.length]?).getD z) ∧
    (∀ t i : Nat, i < B →
      (pullBuffer samples z B t)[i]? =
        samples[(t * B + i) % samples.length]?) ∧
    nextSampleClosure samples z samples.length = (samples[0]?).getD z := by
  refine ⟨fun j => rfl, fun t i hi => ?_, ?_⟩
  · have hlt : (t * B + i) % samples.length < samples.length :=
      Nat.mod_lt _ hK
    simp [pullBuffer, List.getElem?_map, List.getElem?_range, hi,
      nextSampleClosure, cyclePull, List.getElem?_eq_getElem hlt]
  · simp [nextSampleClosure, cyclePull, Nat.mod_self]

/-- Witness for C4 at the clip [1, 2, 3] with buffer size 2: the second
element of the third pulled buffer is sample (2*2+1) mod 3 = 2. -/
theorem c4_witness :
    0 < ([(1 : Int), 2, 3]).length ∧ 2 < ([(1 : Int), 2, 3]).length ∧
    (pullBuffer [(1 : Int), 2, 3] 0 2 2)[1]? =
      ([(1 : Int), 2, 3])[(2 * 2 + 1) % ([(1 : Int), 2, 3]).length]? :=
  ⟨by decide, by decide,
    (c4_cyclic_source_in_order_wraps [(1 : Int), 2, 3] 0 2 (by decide)
      (by decide)).2.1 2 1 (by decide)⟩

/-- Claim C5: `write_data` writes each pulled source sample, converted once,
to every channel slot of its frame, so after a call every frame holds the
same value in all of its channels, and the whole requested buffer (all `n`
slots) is filled. -/
theorem c5_mono_fanout {α β : Type} (next : Nat → α) (conv : α → β)
    (channels : Nat) (hc : 1 ≤ channels) :
    (∀ n k : Nat, ∀ frame ∈ write_data_frames channels next conv n k,
      ∃ t : Nat, frame = List.replicate frame.length (conv (next t))) ∧
    (∀ n : Nat, (write_data channels next conv n).length = n) := by
  constructor
  · intro n
    induction n using Nat.strong_induction_on with
    | _ n ih =>
      intro k frame hframe
      rw [write_data_frames_eq] at hframe
      by_cases hn : 0 < n
      · have hc0 : 0 < channels := hc
        have hmin : 0 < min channels n := lt_min hc0 hn
        have hlt : n - min channels n < n := Nat.sub_lt hn hmin
        rw [if_pos ⟨hc0, hn⟩] at hframe
        rcases List.mem_cons.mp hframe with hhead | htail
        · exact ⟨k, by simp [hhead]⟩
        · exact ih (n - min channels n) hlt (k + 1) frame htail
      · have hn0 : n = 0 := by omega
        simp [hn0] at hframe
  · intro n
    exact write_data_frames_flatten_length channels next conv hc n 0

/-- Witness for C5 with 2 channels and 3 output slots: the first frame is a
constant frame, and all 3 slots are filled. -/
theorem c5_witness :
    1 ≤ 2 ∧
    (∃ t : Nat, [(5 : Int), 5] =
      List.replicate ([(5 : Int), 5]).length (id ((fun _ => (5 : Int)) t))) ∧
    (write_data 2 (fun _ => (5 : Int)) id 3).length = 3 :=
  ⟨by decide,
    (c5_mono_fanout (fun _ => (5 : Int)) id 2 (by decide)).1 3 0 [(5 : Int), 5]
      (by decide),
    (c5_mono_fanout (fun _ => (5 : Int)) id 2 (by decide)).2 3⟩

/-- Claim C10: the pull closure is total: on an empty decoded clip the
cyclic iterator yields `none` on every pull, the fallback `0.0` is emitted,
and `write_data` still fills the entire requested buffer with the converted
silence value. -/
theorem c10_empty_clip_silence {α β : Type} (z : α) (conv : α → β)
    (channels n : Nat) (hc : 1 ≤ channels) :
    (∀ i : Nat, nextSampleClosure ([] : List α) z i = z) ∧
    write_data channels (nextSampleClosure ([] : List α) z) conv n =
      List.replicate n (conv z) := by
  constructor
  · intro i
    simp [nextSampleClosure, cyclePull]
  · exact write_data_frames_const channels _ conv z hc
      (fun i => by simp [nextSampleClosure, cyclePull]) n 0

/-- Witness for C10: with one channel and a 2-slot buffer over the empty
clip, the whole buffer is the converted zero. -/
theorem c10_witness :
    (1 : Nat) ≤ 1 ∧
    nextSampleClosure ([] : List Int) 0 5 = 0 ∧
    write_data 1 (nextSampleClosure ([] : List Int) 0) id 2 =
      List.replicate 2 (id (0 : Int)) :=
  ⟨by decide,
    (c10_empty_clip_silence (0 : Int) id 1 2 (by decide)).1 5,
    (c10_empty_clip_silence (0 : Int) id 1 2 (by decide)).2⟩

/-- Claim C6: a key event whose (state, category) pair has no loaded clip is
a no-op for the callback: no error, no write — the output buffer is returned
exactly as it was and nothing is logged. -/
theorem c6_unmapped_event_noop {α β : Type} (channels : Nat)
    (decode : List Nat → List α) (z : α) (conv : α → β) (st : AppState)
    (kp : KeyPressType × SoundType) (data : List β)
    (h : get_audio_data st kp = none) :
    callback channels decode z conv st (.ok kp) data = (data, []) := by
  simp [callback, h]

/-- Witness for C6: a freshly created state maps no pair, so the event
(Press, Space) leaves a concrete buffer untouched. -/
theorem c6_witness :
    get_audio_data (AppState.new .CherryMXBrown) (.Press, .Space) = none ∧
    callback 2 decodeNat (0 : Int) id (AppState.new .CherryMXBrown)
      (.ok (.Press, .Space)) [(1 : Int), 2] = ([(1 : Int), 2], []) :=
  ⟨rfl, c6_unmapped_event_noop 2 decodeNat (0 : Int) id _ _ _ rfl⟩

/-- Claim C8 (amended): when every sender has been dropped, the single
pre-stream `recv` yields an error; each callback invocation observes that
error and does nothing — no panic, no log line, buffer untouched. There is
no receive loop: `recv` runs exactly once, before the stream is built. -/
theorem c8_sender_drop_callback_noop {α β : Type} (channels : Nat)
    (decode : List Nat → List α) (z : α) (conv : α → β) (st : AppState)
    (data : List β) (e : RecvError) :
    callback channels decode z conv st (.error e) data = (data, []) := rfl

/-- Counterexample for C8 as stated: on channel closure the consumer does
observe the error, but it logs nothing (the log output is empty, negating
"logs it") and silently leaves the buffer as is. -/
theorem c8_counterexample_no_log :
    recv ([] : List (KeyPressType × SoundType)) = .error .disconnected ∧
    (callback 2 decodeNat (0 : Int) id (AppState.new .CherryMXBrown)
      (recv []) [(5 : Int), 6]).2 = [] ∧
    (callback 2 decodeNat (0 : Int) id (AppState.new .CherryMXBrown)
      (recv []) [(5 : Int), 6]).1 = [(5 : Int), 6] :=
  ⟨rfl, rfl, rfl⟩

/-- Claim C1 (code bug): `recv` runs once before the stream is built, so
with (Press, Enter) sent before (Press, Backspace), every callback
invocation replays the Enter clip's samples ([10, 10] per 2-slot mono
buffer) — not the Backspace clip's ([20, 20]) as "latest wins" requires. -/
theorem c1_first_event_replayed_not_latest :
    stream_callbacks 1 decodeNat (0 : Int) id
        [(KeyPressType.Press, SoundType.Enter),
         (KeyPressType.Press, SoundType.Backspace)]
        { theme := .CherryMXBrown,
          audio_press := [{ sound_type := .Enter, data := [10] },
                          { sound_type := .Backspace, data := [20] }],
          audio_release := [] }
        [[0, 0], [0, 0]] = [[10, 10], [10, 10]] ∧
    ([[10, 10], [10, 10]] : List (List Int)) ≠ [[20, 20], [20, 20]] :=
  ⟨rfl, by decide⟩

/-- Claim C9: `handle_keyboard` ends in `loop` with an empty body, so after
registering the two handlers it never reaches the returned state: the
capture loop never naturally returns control to its caller. -/
theorem c9_capture_loop_never_returns :
    ∀ n : Nat, handle_keyboard_trace n ≠ CapturePhase.returned := by
  have h : ∀ n, handle_keyboard_trace n = CapturePhase.looping := by
    intro n
    induction n with
    | zero => rfl
    | succ n ih => simp [handle_keyboard_trace, ih, handle_keyboard_step]
  intro n
  rw [h n]
  simp

end Keydio
